import Mathlib

/-!
Verification of the attention library in `attn/attention.py`.

The library is pure real-valued tensor arithmetic: a scaled dot-product
attention primitive (`Attention.self_attention`), a single-head wrapper
(`Attention.forward`), and three compositions (`MultiheadAttention`,
`MultiQueryAttention`, `GroupedQueryAttention`) that run several attention
units and merge their outputs through `torch.cat` followed by an output
projection.

Modelling choices:
* A 3-D tensor of shape (batch, seq, chan) is a function
  `Fin batch → Fin seq → Fin chan → ℝ`.
* Floating-point arithmetic is modelled by exact real arithmetic.
* The value `-inf` written by `torch.masked_fill` is modelled by `⊥` in
  `WithBot ℝ`; `torch.softmax` applied to such scores exponentiates with
  `exp (-inf) = 0`, which `bexp` captures.  A row whose entries are all `⊥`
  yields denominator `0`; real division by zero gives `0`, the stand-in for
  the float `NaN` row (the row then sums to `0`, not `1`).
* `nn.Linear` checks that the channel count of its input equals its declared
  `in_features`; the dynamic variant `LinearNB.fwdD` returns `none` on
  mismatch, modelling the runtime shape error.
* `torch.cat([...], dim=1)` — concatenation along the sequence axis, exactly
  as written in the source — is `catSeq`.
-/

namespace Attn

/-- A 3-D tensor of shape (batch, seq, chan) with real entries. -/
def T (b s c : ℕ) : Type := Fin b → Fin s → Fin c → ℝ

/-- Exponential on `ℝ ∪ {-∞}`: `exp ⊥ = 0`, matching the value the float
softmax assigns to a `-inf` score entry. -/
noncomputable def bexp : WithBot ℝ → ℝ :=
  WithBot.recBotCoe 0 Real.exp

/-- Raw attention scores: `torch.matmul(Q, torch.transpose(K, -1, -2))`.
Entry (bi, i, k) is the dot product of query row i with key row k. -/
def scoreRaw {b sq sk d : ℕ} (Q : T b sq d) (K : T b sk d) :
    Fin b → Fin sq → Fin sk → ℝ :=
  fun bi i k => ∑ j, Q bi i j * K bi k j

/-- Scaled scores: `score /= torch.sqrt(self.dim_K)`.  Note the divisor is
`self.dim_K`, the `embed_dim` fixed at construction, not the width of the
tensors supplied to `self_attention`. -/
noncomputable def scoreScaled {b sq sk d : ℕ} (dimK : ℕ)
    (Q : T b sq d) (K : T b sk d) : Fin b → Fin sq → Fin sk → ℝ :=
  fun bi i k => scoreRaw Q K bi i k / Real.sqrt dimK

/-- Optional masking: `score = torch.masked_fill(score, mask == 0, -inf)`.
Where the mask is `false` the score becomes `-inf` (here `⊥`); with no mask
the scaled score is kept. -/
noncomputable def scoreMasked {b sq sk d : ℕ} (dimK : ℕ)
    (Q : T b sq d) (K : T b sk d)
    (mask : Option (Fin b → Fin sq → Fin sk → Bool)) :
    Fin b → Fin sq → Fin sk → WithBot ℝ :=
  fun bi i k =>
    match mask with
    | none => (scoreScaled dimK Q K bi i k : WithBot ℝ)
    | some m =>
        if m bi i k then (scoreScaled dimK Q K bi i k : WithBot ℝ) else ⊥

/-- Post-softmax attention weights: `torch.softmax(score, dim=-1)`, softmax
along the key axis. -/
noncomputable def attnWeights {b sq sk d : ℕ} (dimK : ℕ)
    (Q : T b sq d) (K : T b sk d)
    (mask : Option (Fin b → Fin sq → Fin sk → Bool)) :
    Fin b → Fin sq → Fin sk → ℝ :=
  fun bi i k =>
    bexp (scoreMasked dimK Q K mask bi i k) /
      ∑ j, bexp (scoreMasked dimK Q K mask bi i j)

/-- The scaled dot-product attention primitive `Attention.self_attention`:
matmul, scale, optional mask, softmax, matmul with V. -/
noncomputable def self_attention {b sq sk d dv : ℕ} (dimK : ℕ)
    (Q : T b sq d) (K : T b sk d) (V : T b sk dv)
    (mask : Option (Fin b → Fin sq → Fin sk → Bool)) : T b sq dv :=
  fun bi i v => ∑ k, attnWeights dimK Q K mask bi i k * V bi k v

/-- Parameters of `nn.Linear(in_features, out_features, bias=True)`. -/
structure Linear (inF outF : ℕ) where
  weight : Fin outF → Fin inF → ℝ
  bias : Fin outF → ℝ

/-- Application of a biased linear layer to a tensor whose channel count
matches `in_features` (shape checked statically). -/
def Linear.fwd {inF outF b s : ℕ} (L : Linear inF outF) (x : T b s inF) :
    T b s outF :=
  fun bi i o => (∑ j, L.weight o j * x bi i j) + L.bias o

/-- Parameters of `nn.Linear(in_features, out_features, bias=False)` — the
output projections `self.proj` of the three compositions. -/
structure LinearNB (inF outF : ℕ) where
  weight : Fin outF → Fin inF → ℝ

/-- Dynamic application of a bias-free linear layer: PyTorch raises a shape
error unless the input's channel count equals `in_features`; that failure is
`none` here. -/
def LinearNB.fwdD {inF outF b s c : ℕ} (L : LinearNB inF outF)
    (x : T b s c) : Option (T b s outF) :=
  if h : c = inF then
    some (fun bi i o => ∑ j : Fin c, L.weight o (Fin.cast h j) * x bi i j)
  else
    none

/-- Parameters of the single-head `Attention` module: three biased
projections `word_size → embed_dim`; `self.dim_K = embed_dim`. -/
structure AttentionP (word embed : ℕ) where
  query : Linear word embed
  key : Linear word embed
  value : Linear word embed

/-- Single-head forward: Q, K, V projections of the input, then the
primitive, whose output is returned unchanged. -/
noncomputable def Attention.forward {word embed b s : ℕ}
    (p : AttentionP word embed) (x : T b s word)
    (mask : Option (Fin b → Fin s → Fin s → Bool)) : T b s embed :=
  self_attention embed (p.query.fwd x) (p.key.fwd x) (p.value.fwd x) mask

/-- The source's `torch.cat([...], dim=1)`: concatenation of `n` same-shaped
tensors along the SEQUENCE axis (dim 1 of a (batch, seq, chan) tensor),
producing shape (batch, n*seq, chan).  Element i of the result's sequence
axis comes from tensor `i / s`, row `i % s`. -/
def catSeq {n b s c : ℕ} (f : Fin n → T b s c) : T b (n * s) c :=
  fun bi i ch =>
    have hs : 0 < s := by
      rcases Nat.eq_zero_or_pos s with h | h
      · exact absurd i.isLt (by simp [h])
      · exact h
    f ⟨i.val / s, Nat.div_lt_of_lt_mul (by rw [Nat.mul_comm s n]; exact i.isLt)⟩
      bi ⟨i.val % s, Nat.mod_lt _ hs⟩ ch

/-- Parameters of `MultiheadAttention`: `n_head` independent single-head
units and an output projection `nn.Linear(embed_dim * n_head, embed_dim,
bias=False)`. -/
structure MultiheadAttentionP (word embed nHead : ℕ) where
  multihead : Fin nHead → AttentionP word embed
  proj : LinearNB (embed * nHead) embed

/-- `MultiheadAttention.forward`: run every head on the same input and mask,
`torch.cat` the results along dim 1, then apply `self.proj` (which raises a
shape error — `none` — when the concatenated channel count differs from its
`in_features`). -/
noncomputable def MultiheadAttention.forward {word embed nHead b s : ℕ}
    (p : MultiheadAttentionP word embed nHead) (x : T b s word)
    (mask : Option (Fin b → Fin s → Fin s → Bool)) :
    Option (T b (nHead * s) embed) :=
  LinearNB.fwdD p.proj
    (catSeq (fun h => Attention.forward (p.multihead h) x mask))

/-- Parameters of `MultiQueryAttention`: `n_query` independent query
projections, one shared key and one shared value projection, and an output
projection `nn.Linear(embed_dim * n_query, embed_dim, bias=False)`.
`self.dim_K = embed_dim` is inherited from `Attention.__init__`. -/
structure MultiQueryAttentionP (word embed nQuery : ℕ) where
  querys : Fin nQuery → Linear word embed
  key : Linear word embed
  value : Linear word embed
  proj : LinearNB (embed * nQuery) embed

/-- `MultiQueryAttention.forward`: shared K and V computed once, the
inherited `self_attention` run per query projection, `torch.cat` along
dim 1, then `self.proj`. -/
noncomputable def MultiQueryAttention.forward {word embed nQuery b s : ℕ}
    (p : MultiQueryAttentionP word embed nQuery) (x : T b s word)
    (mask : Option (Fin b → Fin s → Fin s → Bool)) :
    Option (T b (nQuery * s) embed) :=
  let K := p.key.fwd x
  let V := p.value.fwd x
  LinearNB.fwdD p.proj
    (catSeq (fun q => self_attention embed ((p.querys q).fwd x) K V mask))

/-- Collect a family of optional results: `none` as soon as one member is
`none`, mirroring an exception raised while evaluating the list
comprehension inside `torch.cat`. -/
def seqOption {n : ℕ} {α : Type} (f : Fin n → Option α) :
    Option (Fin n → α) :=
  if h : ∀ i, (f i).isSome then some (fun i => (f i).get (h i)) else none

/-- Parameters of `GroupedQueryAttention`: `n_grouped` independent
`MultiQueryAttention` groups and an output projection
`nn.Linear(embed_dim * n_grouped, embed_dim, bias=False)`. -/
structure GroupedQueryAttentionP (word embed nG nQ : ℕ) where
  grouped : Fin nG → MultiQueryAttentionP word embed nQ
  proj : LinearNB (embed * nG) embed

/-- `GroupedQueryAttention.forward`: run every group on the same input and
mask, `torch.cat` the group outputs along dim 1, then apply `self.proj`. -/
noncomputable def GroupedQueryAttention.forward {word embed nG nQ b s : ℕ}
    (p : GroupedQueryAttentionP word embed nG nQ) (x : T b s word)
    (mask : Option (Fin b → Fin s → Fin s → Bool)) :
    Option (T b (nG * (nQ * s)) embed) :=
  match seqOption (fun g => MultiQueryAttention.forward (p.grouped g) x mask) with
  | none => none
  | some Zs => LinearNB.fwdD p.proj (catSeq Zs)

/-- State-passing embedding of `Attention.forward`: the method body is a
sequence of reads of `self`'s parameters; no statement assigns to `self`, so
the post-state is whatever the parameter record was at entry. -/
noncomputable def Attention.forwardS {word embed b s : ℕ}
    (p : AttentionP word embed) (x : T b s word)
    (mask : Option (Fin b → Fin s → Fin s → Bool)) :
    AttentionP word embed × T b s embed :=
  let Q := p.query.fwd x
  let K := p.key.fwd x
  let V := p.value.fwd x
  let Z := self_attention embed Q K V mask
  (p, Z)

/-- State-passing embedding of `MultiheadAttention.forward`. -/
noncomputable def MultiheadAttention.forwardS {word embed nHead b s : ℕ}
    (p : MultiheadAttentionP word embed nHead) (x : T b s word)
    (mask : Option (Fin b → Fin s → Fin s → Bool)) :
    MultiheadAttentionP word embed nHead × Option (T b (nHead * s) embed) :=
  let Zs := catSeq (fun h => Attention.forward (p.multihead h) x mask)
  let Z := LinearNB.fwdD p.proj Zs
  (p, Z)

/-- State-passing embedding of `MultiQueryAttention.forward`. -/
noncomputable def MultiQueryAttention.forwardS {word embed nQuery b s : ℕ}
    (p : MultiQueryAttentionP word embed nQuery) (x : T b s word)
    (mask : Option (Fin b → Fin s → Fin s → Bool)) :
    MultiQueryAttentionP word embed nQuery × Option (T b (nQuery * s) embed) :=
  let K := p.key.fwd x
  let V := p.value.fwd x
  let Zs := catSeq (fun q => self_attention embed ((p.querys q).fwd x) K V mask)
  let Z := LinearNB.fwdD p.proj Zs
  (p, Z)

/-- State-passing embedding of `GroupedQueryAttention.forward`. -/
noncomputable def GroupedQueryAttention.forwardS {word embed nG nQ b s : ℕ}
    (p : GroupedQueryAttentionP word embed nG nQ) (x : T b s word)
    (mask : Option (Fin b → Fin s → Fin s → Bool)) :
    GroupedQueryAttentionP word embed nG nQ × Option (T b (nG * (nQ * s)) embed) :=
  let Z := GroupedQueryAttention.forward p x mask
  (p, Z)

/-- Truncation of a length-3 sequence to its first two positions, used to
compare a masked computation with the computation on the shortened
sequence. -/
def firstTwo {b c : ℕ} (t : T b 3 c) : T b 2 c :=
  fun bi i ch => t bi (Fin.castLE (by decide) i) ch

/-- A concrete `MultiQueryAttention` parameter set with `word_size = 1`,
`embed_dim = 1`, `n_query = 1`: zero query and key projections, a value
projection that is constantly 1, and an identity output projection. -/
def mqaP1 : MultiQueryAttentionP 1 1 1 :=
  ⟨fun _ => ⟨fun _ _ => 0, fun _ => 0⟩, ⟨fun _ _ => 0, fun _ => 0⟩,
    ⟨fun _ _ => 0, fun _ => 1⟩, ⟨fun _ _ => 1⟩⟩

/-- A concrete `GroupedQueryAttention` parameter set with one group whose
parameters are exactly `mqaP1`, and whose own output projection multiplies
by 2. -/
def gqaP1 : GroupedQueryAttentionP 1 1 1 1 :=
  ⟨fun _ => mqaP1, ⟨fun _ _ => 2⟩⟩

/-- A concrete all-zero input of shape (1, 1, 1). -/
def x1 : T 1 1 1 := fun _ _ _ => 0

@[simp] theorem bexp_bot : bexp ⊥ = 0 := rfl

@[simp] theorem bexp_coe (x : ℝ) : bexp (x : WithBot ℝ) = Real.exp x := rfl

theorem bexp_nonneg (x : WithBot ℝ) : 0 ≤ bexp x := by
  induction x using WithBot.recBotCoe with
  | bot => simp
  | coe r => simp [Real.exp_nonneg]

/-- C6: with no mask, the post-softmax weights are non-negative, each weight
row sums to 1, and the primitive's output row is the corresponding weighted
(convex) combination of the Value rows. -/
theorem C6_convex_combination {b sq sk d dv : ℕ} (dimK : ℕ)
    (Q : T b sq d) (K : T b sk d) (V : T b sk dv)
    (bi : Fin b) (i : Fin sq) (k : Fin sk) (v : Fin dv) (_hsk : 0 < sk) :
    0 ≤ attnWeights dimK Q K none bi i k
    ∧ (∑ k2, attnWeights dimK Q K none bi i k2) = 1
    ∧ self_attention dimK Q K V none bi i v
        = ∑ k2, attnWeights dimK Q K none bi i k2 * V bi k2 v := by
  have hne : Nonempty (Fin sk) := ⟨k⟩
  have hpos : 0 < ∑ j, bexp (scoreMasked dimK Q K none bi i j) := by
    refine Finset.sum_pos (fun j _ => ?_) Finset.univ_nonempty
    simp only [scoreMasked, bexp_coe]
    exact Real.exp_pos _
  refine ⟨?_, ?_, rfl⟩
  · exact div_nonneg (bexp_nonneg _) hpos.le
  · simp only [attnWeights]
    rw [← Finset.sum_div, div_self hpos.ne']

theorem C6_convex_combination_witness :
    0 < 1
    ∧ (0 ≤ attnWeights 1 ((fun _ _ _ => 1) : T 1 1 1) ((fun _ _ _ => 1) : T 1 1 1)
          none 0 0 0
      ∧ (∑ k2, attnWeights 1 ((fun _ _ _ => 1) : T 1 1 1) ((fun _ _ _ => 1) : T 1 1 1)
          none 0 0 k2) = 1
      ∧ self_attention 1 ((fun _ _ _ => 1) : T 1 1 1) ((fun _ _ _ => 1) : T 1 1 1)
          ((fun _ _ _ => 1) : T 1 1 1) none 0 0 0
        = ∑ k2, attnWeights 1 ((fun _ _ _ => 1) : T 1 1 1)
            ((fun _ _ _ => 1) : T 1 1 1) none 0 0 k2 * (1 : ℝ)) :=
  ⟨by decide,
    C6_convex_combination 1 (fun _ _ _ => 1) (fun _ _ _ => 1) (fun _ _ _ => 1)
      0 0 0 0 (by decide)⟩

/-- C8: when every key position of a query row is masked, every entry of the
row becomes negative infinity, the post-softmax row sums to 0 (so it is not
a probability distribution; the float reference produces NaN there, rendered
in this exact-arithmetic model by the 0/0 = 0 convention), and this
degenerate row flows straight into the output matmul with no internal
handling. -/
theorem C8_fully_masked_row {b sq sk d dv : ℕ} (dimK : ℕ)
    (Q : T b sq d) (K : T b sk d) (V : T b sk dv)
    (m : Fin b → Fin sq → Fin sk → Bool) (bi : Fin b) (i : Fin sq) (v : Fin dv)
    (hall : ∀ k, m bi i k = false) :
    (∀ k, scoreMasked dimK Q K (some m) bi i k = ⊥)
    ∧ (∑ k, attnWeights dimK Q K (some m) bi i k) = 0
    ∧ (∑ k, attnWeights dimK Q K (some m) bi i k) ≠ 1
    ∧ self_attention dimK Q K V (some m) bi i v = 0 := by
  have hw : ∀ k, attnWeights dimK Q K (some m) bi i k = 0 := by
    intro k
    simp [attnWeights, scoreMasked, hall k]
  have hsum : (∑ k, attnWeights dimK Q K (some m) bi i k) = 0 := by
    simp [hw]
  refine ⟨fun k => by simp [scoreMasked, hall k], hsum, ?_, ?_⟩
  · rw [hsum]; norm_num
  · simp [self_attention, hw]

theorem C8_fully_masked_row_witness :
    (∀ k : Fin 1, ((fun _ _ _ => false) : Fin 1 → Fin 1 → Fin 1 → Bool) 0 0 k = false)
    ∧ ((∀ k, scoreMasked 1 ((fun _ _ _ => 1) : T 1 1 1) ((fun _ _ _ => 1) : T 1 1 1)
          (some fun _ _ _ => false) 0 0 k = ⊥)
      ∧ (∑ k, attnWeights 1 ((fun _ _ _ => 1) : T 1 1 1) ((fun _ _ _ => 1) : T 1 1 1)
          (some fun _ _ _ => false) 0 0 k) = 0
      ∧ (∑ k, attnWeights 1 ((fun _ _ _ => 1) : T 1 1 1) ((fun _ _ _ => 1) : T 1 1 1)
          (some fun _ _ _ => false) 0 0 k) ≠ 1
      ∧ self_attention 1 ((fun _ _ _ => 1) : T 1 1 1) ((fun _ _ _ => 1) : T 1 1 1)
          ((fun _ _ _ => 1) : T 1 1 1) (some fun _ _ _ => false) 0 0 0 = 0) :=
  ⟨by decide,
    C8_fully_masked_row 1 (fun _ _ _ => 1) (fun _ _ _ => 1) (fun _ _ _ => 1)
      (fun _ _ _ => false) 0 0 0 (fun _ => rfl)⟩

/-- C7 counterexample: an `Attention` instance with `embed_dim = 4` whose
`self_attention` is called directly with Query/Key of width d = 1 divides
the raw score by √4 = 2 (the construction-time `self.dim_K`), not by
√d = √1 = 1 as the claim requires for tensors of arbitrary supplied width. -/
theorem C7_scale_counterexample :
    scoreScaled 4 ((fun _ _ _ => 1) : T 1 1 1) ((fun _ _ _ => 1) : T 1 1 1) 0 0 0
      ≠ scoreRaw ((fun _ _ _ => 1) : T 1 1 1) ((fun _ _ _ => 1) : T 1 1 1) 0 0 0
        / Real.sqrt 1 := by
  have h4 : Real.sqrt ((4 : ℕ) : ℝ) = 2 := by
    rw [show (((4 : ℕ) : ℝ)) = 2 ^ 2 by norm_num,
      Real.sqrt_sq (by norm_num : (0:ℝ) ≤ 2)]
  simp [scoreScaled, scoreRaw, h4, Real.sqrt_one]

/-- C7 (amended): every raw score is divided by √(dim_K), where dim_K is the
`embed_dim` fixed at construction; this equals √d for the supplied Query/Key
exactly when their channel width d is that `embed_dim` — which holds for
every call made through `forward`, but not for direct `self_attention` calls
of other widths. -/
theorem C7_scale_amended {b sq sk d : ℕ} (dimK : ℕ) (h : dimK = d)
    (Q : T b sq d) (K : T b sk d) (bi : Fin b) (i : Fin sq) (k : Fin sk) :
    scoreScaled dimK Q K bi i k = scoreRaw Q K bi i k / Real.sqrt d := by
  subst h
  rfl

theorem C7_scale_amended_witness :
    (1 : ℕ) = 1
    ∧ scoreScaled 1 ((fun _ _ _ => 1) : T 1 1 1) ((fun _ _ _ => 1) : T 1 1 1) 0 0 0
      = scoreRaw ((fun _ _ _ => 1) : T 1 1 1) ((fun _ _ _ => 1) : T 1 1 1) 0 0 0
        / Real.sqrt 1 :=
  ⟨rfl, by
    have h := C7_scale_amended 1 rfl ((fun _ _ _ => 1) : T 1 1 1)
      ((fun _ _ _ => 1) : T 1 1 1) 0 0 0
    simpa using h⟩

/-- C3: `Attention.forward` projects the input through its query, key and
value projections, invokes the scaled dot-product primitive on the result,
and returns the primitive's output unchanged (its type is shape
(batch, seq, embed_dim)); the primitive's entry at (bi, i, v) with no mask
is exactly softmax(Q·Kᵀ/√d)·V taken along the key axis. -/
theorem C3_single_head_forward {word embed b s : ℕ}
    (p : AttentionP word embed) (x : T b s word)
    (mask : Option (Fin b → Fin s → Fin s → Bool))
    (bi : Fin b) (i : Fin s) (v : Fin embed) :
    Attention.forward p x mask
      = self_attention embed (p.query.fwd x) (p.key.fwd x) (p.value.fwd x) mask
    ∧ Attention.forward p x none bi i v
      = ∑ k, (Real.exp ((∑ j, p.query.fwd x bi i j * p.key.fwd x bi k j)
                / Real.sqrt embed)
            / ∑ k2, Real.exp ((∑ j, p.query.fwd x bi i j * p.key.fwd x bi k2 j)
                / Real.sqrt embed))
          * p.value.fwd x bi k v := by
  constructor
  · rfl
  · simp [Attention.forward, self_attention, attnWeights, scoreMasked,
      scoreScaled, scoreRaw]

/-- C4: where the mask is false at (query i, key k), the scaled score is
replaced by negative infinity and the post-softmax weight at (i, k) is
exactly zero — for any magnitudes of the other scores — provided the row is
not fully masked. -/
theorem C4_masked_weight_zero {b sq sk d : ℕ} (dimK : ℕ)
    (Q : T b sq d) (K : T b sk d) (m : Fin b → Fin sq → Fin sk → Bool)
    (bi : Fin b) (i : Fin sq) (k : Fin sk)
    (hmk : m bi i k = false) (_hrow : ∃ k2, m bi i k2 = true) :
    scoreMasked dimK Q K (some m) bi i k = ⊥
    ∧ attnWeights dimK Q K (some m) bi i k = 0 := by
  constructor
  · simp [scoreMasked, hmk]
  · simp [attnWeights, scoreMasked, hmk]

theorem C4_masked_weight_zero_witness :
    ((fun _ _ k => decide (k.val = 1)) : Fin 1 → Fin 1 → Fin 2 → Bool) 0 0 0 = false
    ∧ (scoreMasked 1 ((fun _ _ _ => 1) : T 1 1 1) ((fun _ _ _ => 1) : T 1 2 1)
        (some fun _ _ k => decide (k.val = 1)) 0 0 0 = ⊥
      ∧ attnWeights 1 ((fun _ _ _ => 1) : T 1 1 1) ((fun _ _ _ => 1) : T 1 2 1)
        (some fun _ _ k => decide (k.val = 1)) 0 0 0 = 0) :=
  ⟨by decide,
    C4_masked_weight_zero 1 (fun _ _ _ => 1) (fun _ _ _ => 1)
      (fun _ _ k => decide (k.val = 1)) 0 0 0 (by decide) ⟨1, by decide⟩⟩

/-- C9: every component's forward pass is a pure function of the input, the
mask and the parameters: the state-passing embedding returns the parameter
record unchanged and an output equal to the stateless forward function. -/
theorem C9_forward_stateless {word embed nHead nQuery nG nQ b s : ℕ}
    (p1 : AttentionP word embed) (p2 : MultiheadAttentionP word embed nHead)
    (p3 : MultiQueryAttentionP word embed nQuery)
    (p4 : GroupedQueryAttentionP word embed nG nQ)
    (x : T b s word) (mask : Option (Fin b → Fin s → Fin s → Bool)) :
    Attention.forwardS p1 x mask = (p1, Attention.forward p1 x mask)
    ∧ MultiheadAttention.forwardS p2 x mask
        = (p2, MultiheadAttention.forward p2 x mask)
    ∧ MultiQueryAttention.forwardS p3 x mask
        = (p3, MultiQueryAttention.forward p3 x mask)
    ∧ GroupedQueryAttention.forwardS p4 x mask
        = (p4, GroupedQueryAttention.forward p4 x mask) :=
  ⟨rfl, rfl, rfl, rfl⟩

/-- C5: with key sequence length 3 and a mask that excludes key position 2
for every query, the primitive's output equals the output of the same
computation (same dim_K divisor) on Key and Value truncated to positions
0–1 with no mask: the masked position contributes nothing. -/
theorem C5_mask_equals_truncation {b d dv : ℕ} (dimK : ℕ)
    (Q : T b 3 d) (K : T b 3 d) (V : T b 3 dv) :
    self_attention dimK Q K V (some fun _ _ k => decide (k.val ≠ 2))
      = self_attention dimK Q (firstTwo K) (firstTwo V) none := by
  funext bi i v
  simp +decide [self_attention, attnWeights, scoreMasked, scoreScaled,
    scoreRaw, firstTwo, Fin.sum_univ_three, Fin.sum_univ_two, Fin.castLE]

/-- C1: `MultiheadAttention.forward` concatenates the head outputs with
`torch.cat(..., dim=1)` — the sequence axis — so the concatenated tensor has
channel count `embed_dim`, the output projection's declared
`in_features = embed_dim * n_head` does not match, and the forward call
fails with a shape error (`none`) for every `n_head ≥ 2` and `embed_dim ≥ 1`. -/
theorem C1_multihead_forward_shape_error {word embed nHead b s : ℕ}
    (hembed : 1 ≤ embed) (hhead : 2 ≤ nHead)
    (p : MultiheadAttentionP word embed nHead) (x : T b s word)
    (mask : Option (Fin b → Fin s → Fin s → Bool)) :
    MultiheadAttention.forward p x mask = none := by
  unfold MultiheadAttention.forward LinearNB.fwdD
  rw [dif_neg]
  intro hc
  have h2 : embed * 2 ≤ embed * nHead := Nat.mul_le_mul_left embed hhead
  omega

theorem C1_multihead_forward_shape_error_witness :
    1 ≤ 1 ∧ 2 ≤ 2
    ∧ MultiheadAttention.forward
        (⟨fun _ => ⟨⟨fun _ _ => 0, fun _ => 0⟩, ⟨fun _ _ => 0, fun _ => 0⟩,
            ⟨fun _ _ => 0, fun _ => 0⟩⟩, ⟨fun _ _ => 0⟩⟩ :
          MultiheadAttentionP 1 1 2)
        ((fun _ _ _ => 0) : T 1 1 1) none = none :=
  ⟨by decide, by decide,
    C1_multihead_forward_shape_error (by decide) (by decide) _ _ none⟩

theorem bexp_zero : bexp 0 = 1 := by
  rw [show (0 : WithBot ℝ) = ((0 : ℝ) : WithBot ℝ) from rfl, bexp_coe,
    Real.exp_zero]

theorem mqaP1_forward_eval :
    MultiQueryAttention.forward mqaP1 x1 none = some fun _ _ _ => 1 := by
  simp +decide [MultiQueryAttention.forward, LinearNB.fwdD, catSeq,
    self_attention, attnWeights, scoreMasked, scoreScaled, scoreRaw,
    Linear.fwd, mqaP1, x1, Fin.sum_univ_one, Real.exp_zero, Real.sqrt_one,
    bexp_zero]

theorem gqaP1_forward_eval :
    GroupedQueryAttention.forward gqaP1 x1 none = some fun _ _ _ => 2 := by
  have hf : (fun g : Fin 1 =>
      MultiQueryAttention.forward (gqaP1.grouped g) x1 none)
      = fun _ => some ((fun _ _ _ => 1) : T 1 (1 * 1) 1) :=
    funext fun _ => mqaP1_forward_eval
  unfold GroupedQueryAttention.forward
  rw [hf]
  have hs : seqOption (fun _ : Fin 1 => some ((fun _ _ _ => 1) : T 1 (1 * 1) 1))
      = some (fun _ => fun _ _ _ => 1) := by
    simp [seqOption]
  rw [hs]
  simp +decide [LinearNB.fwdD, catSeq, gqaP1]

/-- C2 counterexample: with identical inner parameters (`mqaP1`) on the same
input with no mask, the grouped variant with one group outputs 2 at entry
(0,0,0) while standalone multi-query attention outputs 1, because the
grouped variant applies its own output projection on top. -/
theorem C2_gqa_mqa_counterexample :
    Option.map (fun Z => Z 0 0 0) (GroupedQueryAttention.forward gqaP1 x1 none)
      ≠ Option.map (fun Z => Z 0 0 0) (MultiQueryAttention.forward mqaP1 x1 none) := by
  rw [gqaP1_forward_eval, mqaP1_forward_eval]
  simp

/-- C2 (amended): a `GroupedQueryAttention` with `n_grouped = 1` and
`n_query_each_group = n_query` computes the standalone `MultiQueryAttention`
output of its single group and then applies its own bias-free output
projection to it; the two coincide only when that extra projection acts as
the identity. -/
theorem C2_gqa_single_group_amended {word embed nQ b s : ℕ}
    (p : GroupedQueryAttentionP word embed 1 nQ) (x : T b s word)
    (mask : Option (Fin b → Fin s → Fin s → Bool)) :
    GroupedQueryAttention.forward p x mask
      = (MultiQueryAttention.forward (p.grouped 0) x mask).bind
          (fun Z => LinearNB.fwdD p.proj (catSeq fun _ : Fin 1 => Z)) := by
  unfold GroupedQueryAttention.forward
  cases hm : MultiQueryAttention.forward (p.grouped 0) x mask with
  | none =>
      have hs : seqOption (fun g : Fin 1 =>
          MultiQueryAttention.forward (p.grouped g) x mask) = none := by
        rw [seqOption, dif_neg]
        intro hall
        have h0 := hall 0
        rw [hm] at h0
        simp at h0
      rw [hs]
      rfl
  | some Z =>
      have hg : ∀ g : Fin 1,
          MultiQueryAttention.forward (p.grouped g) x mask = some Z := by
        intro g
        rw [Fin.eq_zero g, hm]
      have hall : ∀ g : Fin 1,
          (MultiQueryAttention.forward (p.grouped g) x mask).isSome := by
        intro g
        rw [hg g]
        rfl
      have hs : seqOption (fun g : Fin 1 =>
          MultiQueryAttention.forward (p.grouped g) x mask)
          = some (fun _ => Z) := by
        rw [seqOption, dif_pos hall]
        congr 1
        funext g
        simp [hg g]
      rw [hs]
      rfl

/-- C10: an all-true boolean mask replaces no score and the primitive's
output equals the unmasked (mask = none) output. -/
theorem C10_all_true_mask_identity {b sq sk d dv : ℕ} (dimK : ℕ)
    (Q : T b sq d) (K : T b sk d) (V : T b sk dv) :
    self_attention dimK Q K V (some fun _ _ _ => true)
      = self_attention dimK Q K V none := by
  funext bi i v
  simp [self_attention, attnWeights, scoreMasked]

end Attn
